import Mathlib

/-!
Verification of the Kingmaker movement and map-state core.

The definitions below are a shallow embedding of the regioned variant of the
application (the `App` component with region-restricted movement, its tile
data module with `DEFAULT_CAPITAL_NAME`, and the axial hex-geometry module).
Pure functions become Lean functions; the React `useState` cells
(`tiles`, `partyTileId`, `screen`, `capitalName`) become the fields of an
explicit `GameState`, and each handler becomes a state-transition function.
-/

namespace Kingmaker

/-- Axial hex coordinate `{ q, r }` with integer components. -/
structure Axial where
  q : Int
  r : Int
deriving DecidableEq, Repr

/-- The six fixed neighbor direction offsets, in source order:
E, NE, NW, W, SW, SE. -/
def NEIGHBOR_DIRS : List Axial :=
  [⟨1, 0⟩, ⟨1, -1⟩, ⟨0, -1⟩, ⟨-1, 0⟩, ⟨-1, 1⟩, ⟨0, 1⟩]

/-- Source `axialAdd(a, b)`: component-wise sum of two axial coordinates. -/
def axialAdd (a b : Axial) : Axial := ⟨a.q + b.q, a.r + b.r⟩

/-- Source `axialNeighbors(a)`: each direction offset added to `a`, in order. -/
def axialNeighbors (a : Axial) : List Axial :=
  NEIGHBOR_DIRS.map (axialAdd a)

/-- Source `axialEquals(a, b)`: coordinate-wise equality test. -/
def axialEquals (a b : Axial) : Bool :=
  a.q == b.q && a.r == b.r

/-- Tile kind: `'capital' | 'wild'`. -/
inductive TileKind where
  | capital
  | wild
deriving DecidableEq, Repr

/-- A tile of the global map. `region` and `position` are the string tags of
the source's closed string-literal unions. -/
structure Tile where
  id : String
  name : String
  region : String
  position : String
  axial : Axial
  kind : TileKind
  discovered : Bool
deriving DecidableEq, Repr

/-- Default name for the capital city. -/
def DEFAULT_CAPITAL_NAME : String := "CALMAFAR"

/-- The initial set of 7 tiles (regioned variant: all start discovered). -/
def INITIAL_TILES : List Tile :=
  [ { id := "capital", name := DEFAULT_CAPITAL_NAME, region := "Capital",
      position := "center", axial := ⟨0, 0⟩, kind := .capital, discovered := true },
    { id := "greenbelt-nw", name := "Greenbelt NW", region := "Greenbelt",
      position := "north-west", axial := ⟨0, -1⟩, kind := .wild, discovered := true },
    { id := "greenbelt-ne", name := "Greenbelt NE", region := "Greenbelt",
      position := "north-east", axial := ⟨1, -1⟩, kind := .wild, discovered := true },
    { id := "pitax", name := "Pitax", region := "Pitax",
      position := "west", axial := ⟨-1, 0⟩, kind := .wild, discovered := true },
    { id := "brevoy", name := "Brevoy", region := "Brevoy",
      position := "east", axial := ⟨1, 0⟩, kind := .wild, discovered := true },
    { id := "tuskwater-sw", name := "Tuskwater Bay SW", region := "Tuskwater Bay",
      position := "south-west", axial := ⟨-1, 1⟩, kind := .wild, discovered := true },
    { id := "tuskwater-se", name := "Tuskwater Bay SE", region := "Tuskwater Bay",
      position := "south-east", axial := ⟨0, 1⟩, kind := .wild, discovered := true } ]

/-- Screen state, the discriminated union
`{kind:'global'} | {kind:'tile'; tileId} | {kind:'capital'}`. -/
inductive Screen where
  | global
  | tile (tileId : String)
  | capital
deriving DecidableEq, Repr

/-- The full mutable state of the `App` component: the four `useState` cells. -/
structure GameState where
  tiles : List Tile
  partyTileId : String
  screen : Screen
  capitalName : String
deriving DecidableEq, Repr

/-- Initial state: initial tiles, party on `capital`, global screen,
default capital name. -/
def initialState : GameState :=
  { tiles := INITIAL_TILES, partyTileId := "capital",
    screen := .global, capitalName := DEFAULT_CAPITAL_NAME }

/-- Lookup `tilesById.get(id)`: lookup in the `Map` built from `tiles.map(t => [t.id, t])`.
A JS `Map` constructed from a pair list keeps the last entry for a duplicated
key, so the lookup prefers later list entries. -/
def lookupTile (tiles : List Tile) (id : String) : Option Tile :=
  match tiles with
  | [] => none
  | t :: rest =>
    match lookupTile rest id with
    | some u => some u
    | none => if t.id == id then some t else none

/-- Source `isAdjacentMove(fromId, toId)`: both endpoints must resolve and the
destination's axial must equal one of the six neighbors of the source's. -/
def isAdjacentMove (tiles : List Tile) (fromId toId : String) : Bool :=
  match lookupTile tiles fromId, lookupTile tiles toId with
  | some f, some t => (axialNeighbors f.axial).any (fun n => axialEquals n t.axial)
  | _, _ => false

/-- Source `isRegionMoveAllowed(fromId, toId)`: both endpoints must resolve; the
`Capital` region is a hub (always allowed), otherwise the regions must match. -/
def isRegionMoveAllowed (tiles : List Tile) (fromId toId : String) : Bool :=
  match lookupTile tiles fromId, lookupTile tiles toId with
  | some f, some t =>
    if f.region == "Capital" || t.region == "Capital" then true
    else f.region == t.region
  | _, _ => false

/-- Source `markDiscovered(tileId)` on the tiles array: map every tile with that id
to a copy with `discovered := true`, leaving every other tile unchanged. -/
def markDiscoveredTiles (tiles : List Tile) (tileId : String) : List Tile :=
  tiles.map (fun t => if t.id == tileId then { t with discovered := true } else t)

/-- Source `markDiscovered(tileId)` as a state transition (only the tiles change). -/
def markDiscovered (s : GameState) (tileId : String) : GameState :=
  { s with tiles := markDiscoveredTiles s.tiles tileId }

/-- Navigation directive emitted by a successful move. -/
inductive Directive where
  | stayOnGlobalView
  | openTileDetail (tileId : String)
deriving DecidableEq, Repr

/-- Reason for a rejected move. `notAdjacent` labels the adjacency-guard
return (which also covers unresolved tile ids, since `isAdjacentMove`
reports `false` for those); `crossRegion` labels the region-guard return. -/
inductive Reason where
  | notAdjacent
  | crossRegion
deriving DecidableEq, Repr

/-- Outcome of `attemptMoveTo`. The source handler returns `void`; the
outcome labels which of its early-return branches (or the success path)
was taken, as described by the specification's `Outcome` taxonomy. -/
inductive Outcome where
  | moved (d : Directive)
  | invalid (r : Reason)
  | noop
deriving DecidableEq, Repr

/-- Source `attemptMoveTo(tileId)`: self-move is inert; then the adjacency guard;
then the region guard; on success the party position is updated, the
destination is marked discovered, and the screen transitions to `global`
for the capital destination or `tile tileId` otherwise. -/
def attemptMoveTo (s : GameState) (tileId : String) : Outcome × GameState :=
  if tileId == s.partyTileId then (.noop, s)
  else if !(isAdjacentMove s.tiles s.partyTileId tileId) then (.invalid .notAdjacent, s)
  else if !(isRegionMoveAllowed s.tiles s.partyTileId tileId) then (.invalid .crossRegion, s)
  else
    let s1 := markDiscovered { s with partyTileId := tileId } tileId
    if tileId == "capital" then (.moved .stayOnGlobalView, { s1 with screen := .global })
    else (.moved (.openTileDetail tileId), { s1 with screen := .tile tileId })

/-- Source `backToGlobal()`: unconditionally show the global screen. -/
def backToGlobal (s : GameState) : GameState :=
  { s with screen := .global }

/-- Source `enterCapital()`: only when the party is on the capital tile does the
screen change to the capital view; otherwise nothing happens. -/
def enterCapital (s : GameState) : GameState :=
  if s.partyTileId == "capital" then { s with screen := .capital } else s

/-- Whether a directive and a screen state agree: `stayOnGlobalView`
corresponds to the global screen, `openTileDetail id` to `tile id`. -/
def directiveMatches (d : Directive) (sc : Screen) : Prop :=
  match d with
  | .stayOnGlobalView => sc = .global
  | .openTileDetail id => sc = .tile id

/-- Whitespace as recognized by the JS `String.prototype.trim` (the ASCII
whitespace characters plus the common Unicode ones exercised here). -/
def isJsWs (c : Char) : Bool :=
  c == ' ' || c == '\t' || c == '\n' || c == '\r' ||
  c == '\x0b' || c == '\x0c' || c == '\u00A0' || c == '\uFEFF'

/-- Remove leading and trailing whitespace from a character list. -/
def trimChars (l : List Char) : List Char :=
  (((l.dropWhile isJsWs).reverse).dropWhile isJsWs).reverse

/-- Source `newName.trim()`: remove leading and trailing whitespace. -/
def jsTrim (s : String) : String := ⟨trimChars s.data⟩

/-- Result of `updateCapitalName`. The source returns a boolean (`ok` maps
to `true`, both error constructors to `false`); the error constructor
records which of the two distinct validation returns rejected the name. -/
inductive RenameResult where
  | ok
  | errEmpty
  | errTooLong
deriving DecidableEq, Repr

/-- Source `updateCapitalName(newName)`: trim, reject the empty trimmed name, then
reject a trimmed name longer than 30 characters, otherwise store the
trimmed name as the capital's display name. -/
def updateCapitalName (s : GameState) (newName : String) : RenameResult × GameState :=
  if (jsTrim newName).length = 0 then (.errEmpty, s)
  else if (jsTrim newName).length > 30 then (.errTooLong, s)
  else (.ok, { s with capitalName := jsTrim newName })

/-- The inbound operations the UI can invoke on the engine. -/
inductive Op where
  | move (toId : String)
  | enter
  | back
  | rename (newName : String)

/-- Apply one inbound operation to the state, discarding the reported
outcome where one exists. -/
def applyOp (s : GameState) : Op → GameState
  | .move tid => (attemptMoveTo s tid).2
  | .enter => enterCapital s
  | .back => backToGlobal s
  | .rename n => (updateCapitalName s n).2

/-- The states reachable from the initial state by any sequence of
inbound operations. -/
inductive Reachable : GameState → Prop where
  | init : Reachable initialState
  | step {s : GameState} (h : Reachable s) (op : Op) : Reachable (applyOp s op)

/-- The first character of the list, when there is one, is not whitespace. -/
def noWsHead (l : List Char) : Bool :=
  match l.head? with
  | some c => !isJsWs c
  | none => true

/-- A well-formed capital display name: non-empty, at most 30 characters,
and without leading or trailing whitespace. -/
def wellFormedName (n : String) : Prop :=
  n.data ≠ [] ∧ n.data.length ≤ 30 ∧
  noWsHead n.data = true ∧ noWsHead n.data.reverse = true

/-- Roster invariant: every tile of kind `capital` has id `"capital"`. -/
def capIdInv (tiles : List Tile) : Prop :=
  ∀ t ∈ tiles, t.kind = TileKind.capital → t.id = "capital"

end Kingmaker

namespace Kingmaker

/-- C5: `axialNeighbors a` is exactly the six offsets added to `a` in the
fixed source order; hence it has length 6 and its elements are pairwise
distinct. -/
theorem axialNeighbors_enum (a : Axial) :
    axialNeighbors a =
      [⟨a.q + 1, a.r⟩, ⟨a.q + 1, a.r - 1⟩, ⟨a.q, a.r - 1⟩,
       ⟨a.q - 1, a.r⟩, ⟨a.q - 1, a.r + 1⟩, ⟨a.q, a.r + 1⟩] ∧
    (axialNeighbors a).length = 6 ∧ (axialNeighbors a).Nodup := by
  have hinj : Function.Injective (axialAdd a) := by
    intro b c h
    cases b; cases c
    simp only [axialAdd, Axial.mk.injEq] at h ⊢
    omega
  refine ⟨?_, by simp [axialNeighbors, NEIGHBOR_DIRS], ?_⟩
  · simp only [axialNeighbors, NEIGHBOR_DIRS, List.map_cons, List.map_nil, axialAdd,
      List.cons.injEq, Axial.mk.injEq, and_true]
    and_intros <;> ring_nf
  · exact List.Nodup.map hinj (by decide)

/-- C6: hex adjacency is symmetric: if `b` is a neighbor of `a`, then `a`
is a neighbor of `b`. -/
theorem axialNeighbors_symm (a b : Axial) (h : b ∈ axialNeighbors a) :
    a ∈ axialNeighbors b := by
  cases a; cases b
  simp only [axialNeighbors, NEIGHBOR_DIRS, axialAdd, List.map_cons, List.map_nil,
    List.mem_cons, List.not_mem_nil, or_false, Axial.mk.injEq] at h ⊢
  omega

/-- C6 witness: `(0,0)` is a neighbor of `(1,0)`, obtained from the symmetry
theorem since `(1,0)` is a neighbor of `(0,0)`. -/
theorem axialNeighbors_symm_witness :
    (⟨0, 0⟩ : Axial) ∈ axialNeighbors ⟨1, 0⟩ :=
  axialNeighbors_symm ⟨0, 0⟩ ⟨1, 0⟩ (by decide)

/-- C4: `updateCapitalName` succeeds exactly when the trimmed name is
non-empty and at most 30 characters; on success the stored capital name
becomes the trimmed string and nothing else changes; on failure the state
is unchanged and the result records the reason (`errEmpty` for an empty
trimmed name, `errTooLong` for one longer than 30). -/
theorem updateCapitalName_spec (s : GameState) (newName : String) :
    ((updateCapitalName s newName).1 = RenameResult.ok ↔
      (jsTrim newName).length ≠ 0 ∧ (jsTrim newName).length ≤ 30) ∧
    ((updateCapitalName s newName).1 = RenameResult.ok →
      (updateCapitalName s newName).2 = { s with capitalName := jsTrim newName }) ∧
    ((updateCapitalName s newName).1 ≠ RenameResult.ok →
      (updateCapitalName s newName).2 = s) ∧
    ((jsTrim newName).length = 0 →
      (updateCapitalName s newName).1 = RenameResult.errEmpty) ∧
    ((jsTrim newName).length > 30 →
      (updateCapitalName s newName).1 = RenameResult.errTooLong) := by
  unfold updateCapitalName
  by_cases h0 : (jsTrim newName).length = 0
  · simp [h0]
  · by_cases h30 : (jsTrim newName).length > 30
    · simp [h0, h30, Nat.not_le_of_lt h30]
    · simp [h0, h30, Nat.le_of_not_lt h30]

/-- C4 witness: the boundary examples. `''` and `'   '` fail as empty;
`' Valid City '` succeeds and stores `'Valid City'`; a trimmed name of
exactly 30 characters succeeds; one of 31 characters fails as too long. -/
theorem updateCapitalName_spec_witness :
    (updateCapitalName initialState "").1 = RenameResult.errEmpty ∧
    (updateCapitalName initialState "   ").1 = RenameResult.errEmpty ∧
    (updateCapitalName initialState " Valid City ").1 = RenameResult.ok ∧
    (updateCapitalName initialState " Valid City ").2.capitalName = "Valid City" ∧
    (updateCapitalName initialState "abcdeabcdeabcdeabcdeabcdeabcde").1 = RenameResult.ok ∧
    (updateCapitalName initialState "abcdeabcdeabcdeabcdeabcdeabcdef").1 =
      RenameResult.errTooLong := by
  refine ⟨(updateCapitalName_spec initialState "").2.2.2.1 (by decide),
    (updateCapitalName_spec initialState "   ").2.2.2.1 (by decide),
    (updateCapitalName_spec initialState " Valid City ").1.mpr (by decide), ?_,
    (updateCapitalName_spec initialState "abcdeabcdeabcdeabcdeabcdeabcde").1.mpr (by decide),
    (updateCapitalName_spec initialState "abcdeabcdeabcdeabcdeabcdeabcdef").2.2.2.2
      (by decide)⟩
  rw [(updateCapitalName_spec initialState " Valid City ").2.1
    ((updateCapitalName_spec initialState " Valid City ").1.mpr (by decide))]
  decide

/-- C9: `enterCapital` sets the screen to the capital view exactly when the
party is on the capital tile, is the identity otherwise, and in every case
leaves the party position, the tiles, and the capital name untouched. -/
theorem enterCapital_spec (s : GameState) :
    (s.partyTileId = "capital" → enterCapital s = { s with screen := Screen.capital }) ∧
    (s.partyTileId ≠ "capital" → enterCapital s = s) ∧
    (enterCapital s).partyTileId = s.partyTileId ∧
    (enterCapital s).tiles = s.tiles ∧
    (enterCapital s).capitalName = s.capitalName := by
  unfold enterCapital
  by_cases h : s.partyTileId = "capital" <;> simp [h]

/-- C9 witness: in the initial state the party is on the capital tile, so
`enterCapital` switches the screen to the capital view. -/
theorem enterCapital_spec_witness :
    enterCapital initialState = { initialState with screen := Screen.capital } :=
  (enterCapital_spec initialState).1 rfl

/-- A tile returned by `lookupTile tiles id` carries that id. -/
theorem lookupTile_id {tiles : List Tile} {id : String} {t : Tile}
    (h : lookupTile tiles id = some t) : t.id = id := by
  induction tiles generalizing t with
  | nil => simp [lookupTile] at h
  | cons hd tl ih =>
    simp only [lookupTile] at h
    cases hlt : lookupTile tl id with
    | some u =>
      rw [hlt] at h
      injection h with h
      exact h ▸ ih hlt
    | none =>
      rw [hlt] at h
      by_cases hid : hd.id = id
      · simp [hid] at h
        exact h ▸ hid
      · simp [hid] at h

/-- A tile returned by `lookupTile` is an element of the roster. -/
theorem lookupTile_mem {tiles : List Tile} {id : String} {t : Tile}
    (h : lookupTile tiles id = some t) : t ∈ tiles := by
  induction tiles generalizing t with
  | nil => simp [lookupTile] at h
  | cons hd tl ih =>
    simp only [lookupTile] at h
    cases hlt : lookupTile tl id with
    | some u =>
      rw [hlt] at h
      injection h with h
      exact List.mem_cons_of_mem hd (h ▸ ih hlt)
    | none =>
      rw [hlt] at h
      by_cases hid : hd.id = id
      · simp [hid] at h
        exact h ▸ List.mem_cons_self hd tl
      · simp [hid] at h

/-- Marking a tile discovered, looked up at the marked id, yields the
original lookup result with `discovered` forced to `true`. -/
theorem lookupTile_markDiscoveredTiles (tiles : List Tile) (id : String) :
    lookupTile (markDiscoveredTiles tiles id) id =
      (lookupTile tiles id).map (fun t => { t with discovered := true }) := by
  induction tiles with
  | nil => rfl
  | cons hd tl ih =>
    simp only [markDiscoveredTiles, List.map_cons] at *
    simp only [lookupTile, ih]
    cases hlt : lookupTile tl id with
    | some u => simp
    | none =>
      by_cases hid : hd.id = id
      · simp [hid]
      · simp [hid]

/-- An adjacency success resolves both endpoints in the roster. -/
theorem isAdjacentMove_resolves {tiles : List Tile} {a b : String}
    (h : isAdjacentMove tiles a b = true) :
    ∃ f t, lookupTile tiles a = some f ∧ lookupTile tiles b = some t := by
  unfold isAdjacentMove at h
  cases hf : lookupTile tiles a with
  | none => rw [hf] at h; simp at h
  | some f =>
    cases ht : lookupTile tiles b with
    | none => rw [hf, ht] at h; simp at h
    | some t => exact ⟨f, t, rfl, rfl⟩

/-- Branch characterization of `attemptMoveTo` with the record updates
spelled out. -/
theorem attemptMoveTo_eq (s : GameState) (tid : String) :
    attemptMoveTo s tid =
      if tid = s.partyTileId then (Outcome.noop, s)
      else if isAdjacentMove s.tiles s.partyTileId tid = false then
        (Outcome.invalid Reason.notAdjacent, s)
      else if isRegionMoveAllowed s.tiles s.partyTileId tid = false then
        (Outcome.invalid Reason.crossRegion, s)
      else if tid = "capital" then
        (Outcome.moved Directive.stayOnGlobalView,
          { tiles := markDiscoveredTiles s.tiles tid, partyTileId := tid,
            screen := Screen.global, capitalName := s.capitalName })
      else
        (Outcome.moved (Directive.openTileDetail tid),
          { tiles := markDiscoveredTiles s.tiles tid, partyTileId := tid,
            screen := Screen.tile tid, capitalName := s.capitalName }) := by
  unfold attemptMoveTo markDiscovered
  simp only [beq_iff_eq, Bool.not_eq_true']

/-- C1: for existing adjacent tiles `f` and `t`, with the party on `f`:
if their regions differ and neither is the hub region `Capital`, the move
is rejected at the region guard (outcome `invalid crossRegion`) with the
state unchanged; and whenever either endpoint's region is `Capital`, the
region guard passes. -/
theorem crossRegion_spec (s : GameState) (f t : Tile)
    (hparty : s.partyTileId = f.id)
    (hf : lookupTile s.tiles f.id = some f)
    (ht : lookupTile s.tiles t.id = some t)
    (hadj : isAdjacentMove s.tiles f.id t.id = true) :
    (f.region ≠ t.region → f.region ≠ "Capital" → t.region ≠ "Capital" →
      attemptMoveTo s t.id = (Outcome.invalid Reason.crossRegion, s)) ∧
    (f.region = "Capital" ∨ t.region = "Capital" →
      isRegionMoveAllowed s.tiles f.id t.id = true) := by
  constructor
  · intro hne hfc htc
    have hne' : ¬(t.id = f.id) := by
      intro he
      rw [he, hf] at ht
      injection ht with ht
      exact hne (ht ▸ rfl)
    have hreg : isRegionMoveAllowed s.tiles f.id t.id = false := by
      unfold isRegionMoveAllowed
      rw [hf, ht]
      simp [hfc, htc, hne]
    unfold attemptMoveTo
    rw [hparty]
    simp [hne', hadj, hreg]
  · intro hcap
    unfold isRegionMoveAllowed
    rw [hf, ht]
    rcases hcap with hc | hc <;> simp [hc]

/-- C1 witness: with the party on `greenbelt-nw`, the adjacent tile `pitax`
lies in a different non-hub region, so the move is rejected as
`invalid crossRegion` and the state is unchanged. -/
theorem crossRegion_spec_witness :
    attemptMoveTo { initialState with partyTileId := "greenbelt-nw" } "pitax" =
      (Outcome.invalid Reason.crossRegion,
        { initialState with partyTileId := "greenbelt-nw" }) :=
  (crossRegion_spec { initialState with partyTileId := "greenbelt-nw" }
    { id := "greenbelt-nw", name := "Greenbelt NW", region := "Greenbelt",
      position := "north-west", axial := ⟨0, -1⟩, kind := .wild, discovered := true }
    { id := "pitax", name := "Pitax", region := "Pitax",
      position := "west", axial := ⟨-1, 0⟩, kind := .wild, discovered := true }
    rfl (by decide) (by decide) (by decide)).1
    (by decide) (by decide) (by decide)

/-- C2: `attemptMoveTo` is atomic. A `moved` outcome leaves the party on
the destination, the destination discovered, and the screen matching the
emitted directive; an `invalid` or `noop` outcome returns the state
exactly as it was. -/
theorem attemptMoveTo_atomic (s : GameState) (tid : String) :
    (∀ d s', attemptMoveTo s tid = (Outcome.moved d, s') →
      s'.partyTileId = tid ∧
      (∃ t, lookupTile s'.tiles tid = some t ∧ t.discovered = true) ∧
      directiveMatches d s'.screen) ∧
    (∀ r s', attemptMoveTo s tid = (Outcome.invalid r, s') → s' = s) ∧
    (∀ s', attemptMoveTo s tid = (Outcome.noop, s') → s' = s) := by
  rw [attemptMoveTo_eq]
  split
  · simp
  · split
    · simp
    · next hadj =>
      have h2 : isAdjacentMove s.tiles s.partyTileId tid = true :=
        eq_true_of_ne_false hadj
      obtain ⟨f, t, hf, ht⟩ := isAdjacentMove_resolves h2
      have hdisc : ∃ u, lookupTile (markDiscoveredTiles s.tiles tid) tid = some u ∧
          u.discovered = true := by
        refine ⟨{ t with discovered := true }, ?_, rfl⟩
        rw [lookupTile_markDiscoveredTiles, ht]
        rfl
      split
      · simp
      · split <;>
        · refine ⟨?_, by simp, by simp⟩
          intro d s' h
          rw [Prod.mk.injEq] at h
          obtain ⟨hd, hs⟩ := h
          injection hd with hd
          subst hs
          exact ⟨rfl, hdisc, by rw [← hd]; simp [directiveMatches]⟩

/-- C2 witness: from the initial state, moving to `greenbelt-nw` succeeds
and the postconditions of the atomicity theorem hold there. -/
theorem attemptMoveTo_atomic_witness :
    (attemptMoveTo initialState "greenbelt-nw").2.partyTileId = "greenbelt-nw" ∧
    (∃ t, lookupTile (attemptMoveTo initialState "greenbelt-nw").2.tiles
        "greenbelt-nw" = some t ∧ t.discovered = true) ∧
    directiveMatches (Directive.openTileDetail "greenbelt-nw")
      (attemptMoveTo initialState "greenbelt-nw").2.screen :=
  (attemptMoveTo_atomic initialState "greenbelt-nw").1
    (Directive.openTileDetail "greenbelt-nw")
    (attemptMoveTo initialState "greenbelt-nw").2 (by decide)

/-- A tile of the marked roster comes from a roster tile with the same
id, kind, region, axial and name. -/
theorem mem_markDiscoveredTiles {tiles : List Tile} {tid : String} {t' : Tile}
    (h : t' ∈ markDiscoveredTiles tiles tid) :
    ∃ t ∈ tiles, t'.id = t.id ∧ t'.kind = t.kind ∧ t'.region = t.region := by
  unfold markDiscoveredTiles at h
  obtain ⟨t, htmem, hmap⟩ := List.mem_map.mp h
  refine ⟨t, htmem, ?_⟩
  rw [← hmap]
  by_cases hid : t.id = tid <;> simp [hid]

/-- A move either rejects (state unchanged, outcome not `moved`), or
succeeds with the marked roster and the party on the destination. -/
theorem attemptMoveTo_cases (s : GameState) (tid : String) :
    ((attemptMoveTo s tid).2 = s ∧ ∀ d, (attemptMoveTo s tid).1 ≠ Outcome.moved d) ∨
    (∃ d, (attemptMoveTo s tid).1 = Outcome.moved d ∧
      (attemptMoveTo s tid).2.tiles = markDiscoveredTiles s.tiles tid ∧
      (attemptMoveTo s tid).2.partyTileId = tid) := by
  rw [attemptMoveTo_eq]
  split
  · exact Or.inl ⟨rfl, by simp⟩
  · split
    · exact Or.inl ⟨rfl, by simp⟩
    · split
      · exact Or.inl ⟨rfl, by simp⟩
      · split
        · exact Or.inr ⟨Directive.stayOnGlobalView, rfl, rfl, rfl⟩
        · exact Or.inr ⟨Directive.openTileDetail tid, rfl, rfl, rfl⟩

/-- An operation either leaves the roster unchanged, or is a successful
move and replaces it by the marked roster. -/
theorem applyOp_tiles (s : GameState) (op : Op) :
    (applyOp s op).tiles = s.tiles ∨
    ∃ tid d, op = Op.move tid ∧ (attemptMoveTo s tid).1 = Outcome.moved d ∧
      (applyOp s op).tiles = markDiscoveredTiles s.tiles tid := by
  cases op with
  | move tid =>
    rcases attemptMoveTo_cases s tid with ⟨he, _⟩ | ⟨d, h1, h2, _⟩
    · exact Or.inl (by simp only [applyOp]; rw [he])
    · exact Or.inr ⟨tid, d, rfl, h1, h2⟩
  | enter =>
    simp only [applyOp]
    unfold enterCapital
    split <;> exact Or.inl rfl
  | back => exact Or.inl rfl
  | rename n =>
    simp only [applyOp]
    unfold updateCapitalName
    split
    · exact Or.inl rfl
    · split <;> exact Or.inl rfl

/-- Lemma: `updateCapitalName` either leaves the state unchanged or stores the
trimmed name, which is then non-empty and at most 30 characters. -/
theorem updateCapitalName_cases (s : GameState) (n : String) :
    (updateCapitalName s n).2 = s ∨
    ((updateCapitalName s n).2 = { s with capitalName := jsTrim n } ∧
      (jsTrim n).length ≠ 0 ∧ (jsTrim n).length ≤ 30) := by
  unfold updateCapitalName
  split
  · exact Or.inl rfl
  · split
    · exact Or.inl rfl
    · next h0 h30 => exact Or.inr ⟨rfl, h0, Nat.le_of_not_lt h30⟩

/-- Lemma: `attemptMoveTo` never changes the capital name. -/
theorem attemptMoveTo_capitalName (s : GameState) (tid : String) :
    (attemptMoveTo s tid).2.capitalName = s.capitalName := by
  rw [attemptMoveTo_eq]
  split
  · rfl
  · split
    · rfl
    · split
      · rfl
      · split <;> rfl

/-- Every reachable roster satisfies the capital-id invariant. -/
theorem reachable_capIdInv {s : GameState} (hs : Reachable s) : capIdInv s.tiles := by
  induction hs with
  | init =>
    unfold capIdInv
    decide
  | step hp op ih =>
    rcases applyOp_tiles _ op with he | ⟨tid, d, _, _, he⟩ <;> rw [he]
    · exact ih
    · intro t' ht' hk
      obtain ⟨t, htm, hid, hkind, _⟩ := mem_markDiscoveredTiles ht'
      rw [hid]
      exact ih t htm (hkind ▸ hk)

/-- C3: in any reachable state, a successful move whose destination tile
has kind `capital` emits the `stayOnGlobalView` directive. -/
theorem capitalLanding (s : GameState) (hs : Reachable s) (tid : String)
    (d : Directive) (s' : GameState) (t : Tile)
    (hmv : attemptMoveTo s tid = (Outcome.moved d, s'))
    (ht : lookupTile s.tiles tid = some t)
    (hk : t.kind = TileKind.capital) :
    d = Directive.stayOnGlobalView := by
  have hid : t.id = tid := lookupTile_id ht
  have hcap : tid = "capital" :=
    hid ▸ reachable_capIdInv hs t (lookupTile_mem ht) hk
  subst hcap
  rw [attemptMoveTo_eq] at hmv
  split at hmv
  · simp at hmv
  · split at hmv
    · simp at hmv
    · split at hmv
      · simp at hmv
      · split at hmv
        · rw [Prod.mk.injEq] at hmv
          injection hmv.1 with h
          exact h.symm
        · next hc => exact absurd rfl hc

/-- C3 witness: after moving the party to `greenbelt-nw`, moving back onto
the capital tile succeeds and its directive is `stayOnGlobalView`. -/
theorem capitalLanding_witness :
    attemptMoveTo (applyOp initialState (Op.move "greenbelt-nw")) "capital" =
      (Outcome.moved Directive.stayOnGlobalView,
        (attemptMoveTo (applyOp initialState (Op.move "greenbelt-nw")) "capital").2) ∧
    Directive.stayOnGlobalView = Directive.stayOnGlobalView :=
  ⟨by decide,
   capitalLanding (applyOp initialState (Op.move "greenbelt-nw"))
     (Reachable.step Reachable.init (Op.move "greenbelt-nw")) "capital"
     Directive.stayOnGlobalView
     (attemptMoveTo (applyOp initialState (Op.move "greenbelt-nw")) "capital").2
     { id := "capital", name := DEFAULT_CAPITAL_NAME, region := "Capital",
       position := "center", axial := ⟨0, 0⟩, kind := .capital, discovered := true }
     (by decide) (by decide) rfl⟩

/-- Position `i` of the marked roster holds the tile at position `i` of the
roster, with `discovered` forced to `true` when its id is the marked one. -/
theorem markDiscoveredTiles_getElem (tiles : List Tile) (tid : String) (i : Nat)
    {t : Tile} (h : tiles[i]? = some t) :
    (markDiscoveredTiles tiles tid)[i]? =
      some (if t.id = tid then { t with discovered := true } else t) := by
  unfold markDiscoveredTiles
  rw [List.getElem?_map, h]
  by_cases hid : t.id = tid <;> simp [hid]

/-- C7: discovery is monotonic. Per roster position, no operation turns a
discovered tile back to undiscovered; a position whose flag changes goes
from `false` to `true` and is the destination of a successful move; and
`markDiscovered` itself never clears the flag either. -/
theorem discovered_monotonic (s : GameState) (op : Op) (i : Nat) (t t' : Tile)
    (h1 : s.tiles[i]? = some t) (h2 : (applyOp s op).tiles[i]? = some t') :
    (t.discovered = true → t'.discovered = true) ∧
    (t'.discovered ≠ t.discovered →
      t.discovered = false ∧ t'.discovered = true ∧
      ∃ tid, op = Op.move tid ∧ t.id = tid ∧
        ∃ d, (attemptMoveTo s tid).1 = Outcome.moved d) ∧
    (∀ tid u, (markDiscoveredTiles s.tiles tid)[i]? = some u →
      t.discovered = true → u.discovered = true) := by
  have hmark : ∀ tid u, (markDiscoveredTiles s.tiles tid)[i]? = some u →
      t.discovered = true → u.discovered = true := by
    intro tid u hu htd
    rw [markDiscoveredTiles_getElem s.tiles tid i h1] at hu
    injection hu with hu
    rw [← hu]
    by_cases hid : t.id = tid
    · rw [if_pos hid]
    · rw [if_neg hid]
      exact htd
  rcases applyOp_tiles s op with he | ⟨tid, d, hop, hmv, he⟩
  · rw [he, h1] at h2
    injection h2 with h2
    subst h2
    exact ⟨id, fun hne => absurd rfl hne, hmark⟩
  · rw [he, markDiscoveredTiles_getElem s.tiles tid i h1] at h2
    injection h2 with h2
    by_cases hid : t.id = tid
    · rw [if_pos hid] at h2
      subst h2
      refine ⟨fun _ => rfl, fun hne => ?_, hmark⟩
      have hdf : t.discovered = false := by
        cases hdt : t.discovered with
        | false => rfl
        | true =>
          exact absurd
            (show ({ t with discovered := true } : Tile).discovered = t.discovered by
              rw [hdt]) hne
      exact ⟨hdf, rfl, tid, hop, hid, d, hmv⟩
    · rw [if_neg hid] at h2
      subst h2
      exact ⟨id, fun hne => absurd rfl hne, hmark⟩

/-- C7 witness: the monotonicity theorem instantiated at roster position 0
(the capital tile) for the successful move to `greenbelt-nw`. -/
theorem discovered_monotonic_witness :
    (INITIAL_TILES[0].discovered = true → INITIAL_TILES[0].discovered = true) ∧
    (INITIAL_TILES[0].discovered ≠ INITIAL_TILES[0].discovered →
      INITIAL_TILES[0].discovered = false ∧ INITIAL_TILES[0].discovered = true ∧
      ∃ tid, Op.move "greenbelt-nw" = Op.move tid ∧ INITIAL_TILES[0].id = tid ∧
        ∃ d, (attemptMoveTo initialState tid).1 = Outcome.moved d) ∧
    (∀ tid u, (markDiscoveredTiles initialState.tiles tid)[0]? = some u →
      INITIAL_TILES[0].discovered = true → u.discovered = true) :=
  discovered_monotonic initialState (Op.move "greenbelt-nw") 0
    INITIAL_TILES[0] INITIAL_TILES[0] (by decide) (by decide)

/-- C8: in every reachable state, a `tile tileId` screen refers to a tile
that resolves in the roster. -/
theorem tileDetail_valid {s : GameState} (hs : Reachable s) (tid : String)
    (hscr : s.screen = Screen.tile tid) :
    ∃ t, lookupTile s.tiles tid = some t := by
  revert tid
  induction hs with
  | init =>
    intro tid h
    simp [initialState] at h
  | @step s0 hp op ih =>
    intro tid h
    cases op with
    | back => simp [applyOp, backToGlobal] at h
    | enter =>
      simp only [applyOp] at h ⊢
      unfold enterCapital at h ⊢
      by_cases hc : (s0.partyTileId == "capital") = true
      · rw [if_pos hc] at h
        simp at h
      · rw [if_neg hc] at h ⊢
        exact ih tid h
    | rename n =>
      simp only [applyOp] at h ⊢
      rcases updateCapitalName_cases s0 n with he | ⟨he, _, _⟩ <;> rw [he] at h ⊢ <;>
        exact ih tid h
    | move tid' =>
      simp only [applyOp] at h ⊢
      by_cases c1 : tid' = s0.partyTileId
      · rw [attemptMoveTo_eq, if_pos c1] at h ⊢
        exact ih tid h
      · by_cases c2 : isAdjacentMove s0.tiles s0.partyTileId tid' = false
        · rw [attemptMoveTo_eq, if_neg c1, if_pos c2] at h ⊢
          exact ih tid h
        · by_cases c3 : isRegionMoveAllowed s0.tiles s0.partyTileId tid' = false
          · rw [attemptMoveTo_eq, if_neg c1, if_neg c2, if_pos c3] at h ⊢
            exact ih tid h
          · by_cases c4 : tid' = "capital"
            · rw [attemptMoveTo_eq, if_neg c1, if_neg c2, if_neg c3, if_pos c4] at h
              simp at h
            · rw [attemptMoveTo_eq, if_neg c1, if_neg c2, if_neg c3, if_neg c4] at h ⊢
              have htid : tid' = tid := by
                have h' : Screen.tile tid' = Screen.tile tid := h
                injection h'
              subst htid
              obtain ⟨f, t, hf, ht⟩ := isAdjacentMove_resolves (eq_true_of_ne_false c2)
              refine ⟨{ t with discovered := true }, ?_⟩
              show lookupTile (markDiscoveredTiles s0.tiles tid') tid' = _
              rw [lookupTile_markDiscoveredTiles, ht]
              rfl

/-- C8 witness: after the successful move to `greenbelt-nw` the screen is
`tile "greenbelt-nw"`, and that id resolves in the roster. -/
theorem tileDetail_valid_witness :
    ∃ t, lookupTile (applyOp initialState (Op.move "greenbelt-nw")).tiles
      "greenbelt-nw" = some t :=
  tileDetail_valid (Reachable.step Reachable.init (Op.move "greenbelt-nw"))
    "greenbelt-nw" (by decide)

/-- The head of an append is the head of a non-empty left part. -/
theorem head?_append_left {α : Type} (l1 l2 : List α) (h : l1 ≠ []) :
    (l1 ++ l2).head? = l1.head? := by
  cases l1 with
  | nil => exact absurd rfl h
  | cons a t => rfl

/-- Dropping leading whitespace leaves no leading whitespace. -/
theorem noWsHead_dropWhile (l : List Char) :
    noWsHead (l.dropWhile isJsWs) = true := by
  induction l with
  | nil => rfl
  | cons a l ih =>
    rw [List.dropWhile_cons]
    by_cases h : isJsWs a = true
    · rw [if_pos h]
      exact ih
    · rw [if_neg h]
      simp only [noWsHead, List.head?]
      simp [Bool.not_eq_true] at h
      simp [h]

/-- The trimmed list has no trailing whitespace. -/
theorem noWsHead_trimChars_reverse (l : List Char) :
    noWsHead (trimChars l).reverse = true := by
  unfold trimChars
  rw [List.reverse_reverse]
  exact noWsHead_dropWhile _

/-- The trimmed list has no leading whitespace. -/
theorem noWsHead_trimChars (l : List Char) : noWsHead (trimChars l) = true := by
  obtain ⟨pre, hpre⟩ :=
    List.dropWhile_suffix (l := (l.dropWhile isJsWs).reverse) isJsWs
  unfold trimChars
  cases hcu : ((l.dropWhile isJsWs).reverse).dropWhile isJsWs with
  | nil => rfl
  | cons a ut =>
    rw [hcu] at hpre
    have hne : (a :: ut).reverse ≠ [] := by simp
    have hd2 : l.dropWhile isJsWs = (a :: ut).reverse ++ pre.reverse := by
      have h3 := congrArg List.reverse hpre
      rw [List.reverse_append, List.reverse_reverse] at h3
      exact h3.symm
    have hn := noWsHead_dropWhile l
    rw [hd2] at hn
    unfold noWsHead at hn ⊢
    rw [head?_append_left _ _ hne] at hn
    exact hn

/-- C10: in every reachable state the stored capital display name is
well-formed: non-empty, at most 30 characters, and with no leading or
trailing whitespace. -/
theorem capitalName_wellFormed {s : GameState} (hs : Reachable s) :
    wellFormedName s.capitalName := by
  induction hs with
  | init =>
    unfold wellFormedName
    decide
  | @step s0 hp op ih =>
    cases op with
    | move tid =>
      have he : (applyOp s0 (Op.move tid)).capitalName = s0.capitalName :=
        attemptMoveTo_capitalName s0 tid
      rw [he]
      exact ih
    | enter =>
      simp only [applyOp]
      unfold enterCapital
      split
      · exact ih
      · exact ih
    | back => exact ih
    | rename n =>
      simp only [applyOp]
      rcases updateCapitalName_cases s0 n with he | ⟨he, h0, h30⟩
      · rw [he]
        exact ih
      · rw [he]
        refine ⟨?_, h30, noWsHead_trimChars n.data, noWsHead_trimChars_reverse n.data⟩
        intro hnil
        apply h0
        show (jsTrim n).data.length = 0
        rw [hnil]
        rfl

/-- C10 witness: the initial state's capital name `CALMAFAR` is
well-formed. -/
theorem capitalName_wellFormed_witness : wellFormedName initialState.capitalName :=
  capitalName_wellFormed Reachable.init

end Kingmaker
